import Mathlib

/-
  Verification development for weavebox (src/weavebox.go), a thin routing and
  middleware layer over an HTTP path router.

  The Go source is shallowly embedded below:
  * a middleware / terminal handler is modelled as `MHandler`, an identifier
    together with the outcome (`none` = the handler returned nil, `some e` =
    it returned the error `e`) it produces when invoked on the request under
    consideration; the per-request `Context` value handlers receive is
    abstracted into that recorded outcome,
  * the dispatch closure built by `makeHTTPRouterHandle` is embedded as a
    function returning the trace of the request: the list of handler ids
    invoked, in order, and the list of arguments passed to `ErrorHandler`,
  * response writers are embedded as event traces (`RespEvent`), and the
    access-log decorator `responseLogger` as a fold over writer events,
  * Go's `path.Join` / `path.Clean` (used by `Weavebox.add`) are embedded
    character by character from the Go standard library algorithm,
  * Go slice semantics (backing array, length, capacity, append growth) are
    embedded separately (`GoSlice`, `SliceHeap`) to settle the middleware
    snapshot behaviour of `Subrouter`, which copies the slice header
    (`&Box{*w}`) and therefore shares the backing array with its parent.
-/

/-- A middleware or terminal handler: its identity plus the outcome it
returns when invoked on the request under consideration (`none` = success,
`some e` = it returns the error `e`). -/
structure MHandler where
  id : Nat
  res : Option String
deriving DecidableEq, Repr

/-- One primitive operation performed on an `http.ResponseWriter`. -/
inductive RespEvent
  | setHeader (key value : String)
  | writeHeader (code : Int)
  | bodyWrite (bytes : List Nat)
deriving DecidableEq, Repr

/-- Bytes of a Go string (abstracting UTF-8 encoding by char codes). -/
def strBytes (s : String) : List Nat :=
  s.data.map Char.toNat

/-- The pluggable template engine (`Renderer` interface): `render name data`
returns `none` on success and `some e` when rendering fails. Template data is
abstracted to a `Nat` token. -/
structure RendererM where
  render : String → Nat → Option String
deriving Inhabited

/-- The `Output` sink of a `Weavebox` (`io.Writer`). -/
inductive Sink
  | stderr
  | writer (id : Nat)
deriving DecidableEq, Repr

/-- `var defaultErrorHandler = func(ctx, err) { http.Error(ctx.Response(), err.Error(), 500) }`.
`http.Error` sets the plain-text content type, writes the status header, and
prints the message with `fmt.Fprintln` (message followed by a newline). -/
def defaultErrorHandler (msg : String) : List RespEvent :=
  [RespEvent.setHeader "Content-Type" "text/plain; charset=utf-8",
   RespEvent.writeHeader 500,
   RespEvent.bodyWrite (strBytes (msg ++ "\n"))]

/-- The `Weavebox` struct. The shared `*httprouter.Router` is embedded as the
list of registrations handed to `router.Handle`; `pfx` is the `prefix` field.
(The slice-level aliasing behaviour of the `middleware` field is modelled
separately below with `GoSlice`; here a Go slice is observed as the list of
its elements, which is exact for a single `Weavebox` value.) -/
structure Weavebox where
  errorHandler : String → List RespEvent
  notFoundHandler : Option Nat
  output : Sink
  enableLog : Bool
  templateEngine : Option RendererM
  router : List (String × String × MHandler)
  middleware : List MHandler
  pfx : String
  boundContext : Option Nat

/-- `New()`: fields not assigned in the literal keep their Go zero values. -/
def New : Weavebox where
  errorHandler := defaultErrorHandler
  notFoundHandler := none
  output := Sink.stderr
  enableLog := true
  templateEngine := none
  router := []
  middleware := []
  pfx := ""
  boundContext := none

/-- `Use(handlers ...Handler)`: `for _, h := range handlers { w.middleware = append(w.middleware, h) }`. -/
def useW (w : Weavebox) (handlers : List MHandler) : Weavebox :=
  { w with middleware := handlers.foldl (fun acc h => acc ++ [h]) w.middleware }

/-- A sequence of `Use` calls on an application. -/
def applyUses (w : Weavebox) (calls : List (List MHandler)) : Weavebox :=
  calls.foldl useW w

/-- `Subrouter(prefix)`: `b := &Box{*w}; b.Weavebox.prefix += prefix`
(element-list view; the backing-array sharing of the struct copy is modelled
by `subrouterS` below). -/
def subrouterW (w : Weavebox) (p : String) : Weavebox :=
  { w with pfx := w.pfx ++ p }

/-- `SetTemplateEngine(t Renderer)`: `w.templateEngine = t`. -/
def setTemplateEngine (w : Weavebox) (t : RendererM) : Weavebox :=
  { w with templateEngine := some t }

/-- The body of the closure returned by `makeHTTPRouterHandle(h)`:
run the middleware in order; on the first handler returning a non-nil error,
call `w.ErrorHandler(ctx, err)` and return; otherwise run the terminal
handler and do the same. Result: (ids invoked in order, error-handler
invocation arguments in order). -/
def runChain : List MHandler → MHandler → List Nat × List String
  | [], h =>
    match h.res with
    | some e => ([h.id], [e])
    | none => ([h.id], [])
  | m :: rest, h =>
    match m.res with
    | some e => ([m.id], [e])
    | none =>
      let r := runChain rest h
      (m.id :: r.1, r.2)

/-- `makeHTTPRouterHandle(h)` invoked on a matched request: dispatches over
the application's current middleware list, then the terminal handler. -/
def makeHTTPRouterHandle (w : Weavebox) (h : MHandler) : List Nat × List String :=
  runChain w.middleware h

/-! ### Go `path.Clean` / `path.Join`

`Weavebox.add` computes `path.Join(w.prefix, route)` before handing the route
to the router. The Go standard library algorithm is transcribed below over
`List Char`; the output buffer (`lazybuf`) is observed as the list of its
first `w` characters. -/

/-- The backtracking loop of the `..` case of `path.Clean`:
`for out.w > dotdot && out.index(out.w) != '/' { out.w-- }` (entered after
`out.w--`, with `w` the current value of `out.w`). -/
def backW (buf : List Char) (dotdot : Nat) : Nat → Nat
  | 0 => 0
  | w + 1 =>
    if dotdot < w + 1 ∧ buf[w + 1]? ≠ some '/' then backW buf dotdot w
    else w + 1

/-- The main loop of Go `path.Clean`, one iteration per consumed character
group; `fuel` bounds the iteration count (each step consumes at least one
character of the remaining input, so `remaining.length` suffices). -/
def pathCleanLoop : Nat → Bool → List Char → List Char → Nat → List Char
  | 0, _, _, buf, _ => buf
  | _ + 1, _, [], buf, _ => buf
  | fuel + 1, rooted, c :: rest, buf, dotdot =>
    if c = '/' then
      -- empty path element
      pathCleanLoop fuel rooted rest buf dotdot
    else if c = '.' ∧ (rest.head? = none ∨ rest.head? = some '/') then
      -- . element
      pathCleanLoop fuel rooted rest buf dotdot
    else if c = '.' ∧ rest.head? = some '.' ∧
        ((rest.drop 1).head? = none ∨ (rest.drop 1).head? = some '/') then
      -- .. element: remove to last /
      if dotdot < buf.length then
        pathCleanLoop fuel rooted (rest.drop 1)
          (buf.take (backW buf dotdot (buf.length - 1))) dotdot
      else if ¬rooted then
        let buf2 := (if 0 < buf.length then buf ++ ['/'] else buf) ++ ['.', '.']
        pathCleanLoop fuel rooted (rest.drop 1) buf2 buf2.length
      else
        pathCleanLoop fuel rooted (rest.drop 1) buf dotdot
    else
      -- real path element: add slash if needed, copy element
      let buf2 :=
        (if (rooted ∧ buf.length ≠ 1) ∨ (¬rooted ∧ buf.length ≠ 0)
         then buf ++ ['/'] else buf) ++ (c :: rest.takeWhile (fun x => x ≠ '/'))
      pathCleanLoop fuel rooted (rest.dropWhile (fun x => x ≠ '/')) buf2 dotdot

/-- Go `path.Clean`. -/
def pathClean (p : List Char) : List Char :=
  if p = [] then ['.']
  else if p.head? = some '/' then
    let buf := pathCleanLoop (p.length + 1) true p.tail ['/'] 1
    if buf = [] then ['.'] else buf
  else
    let buf := pathCleanLoop (p.length + 1) false p [] 0
    if buf = [] then ['.'] else buf

/-- Go `path.Join(a, b)`: skip leading empty elements, join the rest with
`"/"` and clean the result. -/
def goPathJoin (a b : String) : String :=
  if a ≠ "" then String.mk (pathClean (a.data ++ '/' :: b.data))
  else if b ≠ "" then String.mk (pathClean b.data)
  else ""

/-- `Weavebox.add(method, route, h)`:
`path := path.Join(w.prefix, route); w.router.Handle(method, path, w.makeHTTPRouterHandle(h))`. -/
def addRoute (w : Weavebox) (method route : String) (h : MHandler) : Weavebox :=
  { w with router := w.router ++ [(method, goPathJoin w.pfx route, h)] }

/-- `Get(route, h)`: `w.add("GET", route, h)`. -/
def getRoute (w : Weavebox) (route : String) (h : MHandler) : Weavebox :=
  addRoute w "GET" route h

/-- `Post(route, h)`: `w.add("POST", route, h)`. -/
def postRoute (w : Weavebox) (route : String) (h : MHandler) : Weavebox :=
  addRoute w "POST" route h

/-- `Put(route, h)`: `w.add("PUT", route, h)`. -/
def putRoute (w : Weavebox) (route : String) (h : MHandler) : Weavebox :=
  addRoute w "PUT" route h

/-- `Delete(route, h)`: `w.add("DELETE", route, h)`. -/
def deleteRoute (w : Weavebox) (route : String) (h : MHandler) : Weavebox :=
  addRoute w "DELETE" route h

/-! ### Go slice semantics for the `middleware` field

`Subrouter` copies the whole `Weavebox` struct (`b := &Box{*w}`), so parent
and subrouter keep distinct slice *headers* (array pointer, length, capacity)
over the *same* backing array. `append` writes in place when capacity
permits, else allocates a fresh array with doubled capacity (Go runtime
growth for small slices: 1, 2, 4, 8, ...). Handlers are identified by `Nat`
ids here. -/

/-- A Go slice header: backing array id, length, capacity. -/
structure GoSlice where
  aid : Nat
  len : Nat
  cap : Nat
deriving DecidableEq, Repr

/-- The heap of backing arrays, indexed by array id; each array is observed
as the list of its initialized cells. -/
abbrev SliceHeap := List (List Nat)

/-- Store `x` at index `i` of a backing array (in-place `append` writes at
index `len`, which either overwrites an initialized cell or extends the
initialized region by one). -/
def writeAt (l : List Nat) (i : Nat) (x : Nat) : List Nat :=
  if i < l.length then l.set i x else l ++ [x]

/-- Capacity growth of `append` for small slices. -/
def growCap (c : Nat) : Nat :=
  if c = 0 then 1 else 2 * c

/-- Go `append(s, x)` for one element: write in place when `len < cap`,
else allocate a fresh backing array of doubled capacity holding the copied
elements plus `x`. -/
def sliceAppend (h : SliceHeap) (s : GoSlice) (x : Nat) : SliceHeap × GoSlice :=
  if s.len < s.cap then
    (h.set s.aid (writeAt (h.getD s.aid []) s.len x), ⟨s.aid, s.len + 1, s.cap⟩)
  else
    (h ++ [(h.getD s.aid []).take s.len ++ [x]],
     ⟨h.length, s.len + 1, growCap s.cap⟩)

/-- The slice-level view of a `Weavebox`: its `prefix` and the slice header
of its `middleware` field. -/
structure WeaveboxS where
  pfxS : String
  middlewareS : GoSlice
deriving DecidableEq, Repr

/-- `New()` at slice level: `middleware` is the nil slice. -/
def newS : SliceHeap × WeaveboxS :=
  ([], ⟨"", ⟨0, 0, 0⟩⟩)

/-- `Use(handlers...)` at slice level: append each handler in order. -/
def useS (st : SliceHeap × WeaveboxS) (handlers : List Nat) : SliceHeap × WeaveboxS :=
  let r := handlers.foldl (fun (p : SliceHeap × GoSlice) x => sliceAppend p.1 p.2 x)
    (st.1, st.2.middlewareS)
  (r.1, { st.2 with middlewareS := r.2 })

/-- `Subrouter(prefix)` at slice level: `b := &Box{*w}` copies the slice
header (sharing the backing array), then `b.Weavebox.prefix += prefix`. -/
def subrouterS (w : WeaveboxS) (p : String) : WeaveboxS :=
  ⟨w.pfxS ++ p, w.middlewareS⟩

/-- The middleware chain a dispatch through this `Weavebox` value runs: the
elements of its slice, read from the current heap. -/
def effectiveMiddleware (h : SliceHeap) (w : WeaveboxS) : List Nat :=
  (h.getD w.middlewareS.aid []).take w.middlewareS.len

/-- Aliasing scenario, step 1: `app := New(); app.Use(h1, h2, h3)` — three
appends leave `middleware` with length 3 and capacity 4. -/
def aliasStep1 : SliceHeap × WeaveboxS :=
  useS newS [1, 2, 3]

/-- Step 2: `s := app.Subrouter("/s")` — the struct copy shares the backing
array with `app`. -/
def aliasSub : WeaveboxS :=
  subrouterS aliasStep1.2 "/s"

/-- Step 3: `s.Use(h4)` — spare capacity, so h4 is written into the shared
backing array. -/
def aliasStep3 : SliceHeap × WeaveboxS :=
  useS (aliasStep1.1, aliasSub) [4]

/-- Step 4: `app.Use(h5)` — `app`'s header still has length 3 and spare
capacity, so h5 overwrites the cell h4 occupies. -/
def aliasStep4 : SliceHeap × WeaveboxS :=
  useS (aliasStep3.1, aliasStep1.2) [5]

/-! ### Context operations -/

/-- Result of `Context.Redirect`: the returned error, and the redirect
actually issued by `http.Redirect` (Location url and status code), if any. -/
structure RedirectResult where
  err : Option String
  issued : Option (String × Int)
deriving DecidableEq, Repr

/-- `Context.Redirect(url, code)`:
`if code < http.StatusMultipleChoices (300) || code > http.StatusTemporaryRedirect (307)
 { return errors.New("invalid redirect code") }; http.Redirect(...); return nil`.
`http.Redirect` returns nothing, so the outcome of the underlying write
(`writeFails`) cannot influence the returned value. -/
def contextRedirect (url : String) (code : Int) (writeFails : Bool) : RedirectResult :=
  if code < 300 ∨ code > 307 then ⟨some "invalid redirect code", none⟩
  else
    -- http.Redirect sets the Location header and writes the status;
    -- a failing body write is ignored (void call), hence no use of writeFails.
    ⟨none, some (url, code)⟩

/-- Outcome of `Context.Render`. Calling `Render` on a `Weavebox` whose
`templateEngine` interface field is nil is a nil-pointer dereference
(runtime panic), modelled by `nilDereference`. -/
inductive RenderOutcome
  | nilDereference
  | ok
  | err (e : String)
deriving DecidableEq, Repr

/-- `Context.Render(name, data)`:
`return c.weavebox.templateEngine.Render(c.Response(), name, data)` —
a method call through the possibly-nil `templateEngine` interface value. -/
def contextRender (w : Weavebox) (name : String) (d : Nat) : RenderOutcome :=
  match w.templateEngine with
  | none => RenderOutcome.nilDereference
  | some t =>
    match t.render name d with
    | some e => RenderOutcome.err e
    | none => RenderOutcome.ok

/-- `Context.JSON(code, v)`:
`c.Response().Header().Set("Content-Type", "application/json");
 c.Response().WriteHeader(code);
 return json.NewEncoder(c.Response()).Encode(v)`.
The serialization of `v` is abstracted as `enc`: on success, `Encode` writes
the serialized bytes once; on failure nothing further is written and the
error is returned. Result: (response events in order, returned error). -/
def contextJSON (enc : Except String (List Nat)) (code : Int) :
    List RespEvent × Option String :=
  match enc with
  | Except.ok bs =>
    ([RespEvent.setHeader "Content-Type" "application/json",
      RespEvent.writeHeader code, RespEvent.bodyWrite bs], none)
  | Except.error e =>
    ([RespEvent.setHeader "Content-Type" "application/json",
      RespEvent.writeHeader code], some e)

/-- Count of body writes in a response trace. -/
def countBodyWrites (evs : List RespEvent) : Nat :=
  evs.countP (fun ev => match ev with
    | RespEvent.bodyWrite _ => true
    | _ => false)

/-- The first status code committed by a response trace (the platform sends
the status line of the first `WriteHeader`). -/
def statusWritten : List RespEvent → Option Int
  | [] => none
  | RespEvent.writeHeader c :: _ => some c
  | _ :: t => statusWritten t

/-- The value set for a header key in a response trace. -/
def headerValue (key : String) : List RespEvent → Option String
  | [] => none
  | RespEvent.setHeader k v :: t => if k = key then some v else headerValue key t
  | _ :: t => headerValue key t

/-- All body bytes written by a response trace, in order. -/
def bodyBytes : List RespEvent → List Nat
  | [] => []
  | RespEvent.bodyWrite bs :: t => bs ++ bodyBytes t
  | _ :: t => bodyBytes t

/-! ### The access-log wrapper `responseLogger` and `ServeHTTP` -/

/-- One operation performed by the handlers on the (wrapped) response writer:
an explicit `WriteHeader(code)` or a body `Write(p)`. -/
inductive WEvent
  | header (code : Int)
  | body (bytes : List Nat)
deriving DecidableEq, Repr

/-- The `responseLogger` counters: `status int; size int` (zero-valued). -/
structure RLog where
  status : Int
  size : Nat
deriving DecidableEq, Repr

/-- One step of `responseLogger`:
`WriteHeader(code)`: forward, then `l.status = code`;
`Write(p)`: `if l.status == 0 { l.status = 200 }`, forward (the underlying
write returns `len(p)`), `l.size += size`. -/
def rlStep (l : RLog) : WEvent → RLog
  | WEvent.header c => ⟨c, l.size⟩
  | WEvent.body p =>
    let l1 : RLog := if l.status = 0 then ⟨200, l.size⟩ else l
    ⟨l1.status, l1.size + p.length⟩

/-- Run the `responseLogger` decorator over the writer events of one
request, starting from the zero value. -/
def runLogger (evs : List WEvent) : RLog :=
  evs.foldl rlStep ⟨0, 0⟩

/-- The request fields `writeLog` reads. (`net.SplitHostPort` parsing of
`r.Host` is abstracted: `host` is the already-extracted host field.) -/
structure RequestM where
  host : String
  method : String
  uri : String
  proto : String
deriving DecidableEq, Repr

/-- The access-log line emitted by `writeLog` (timestamp and duration
omitted: they are wall-clock readings). -/
structure LogLine where
  host : String
  method : String
  uri : String
  proto : String
  status : Int
  size : Nat
deriving DecidableEq, Repr

/-- `writeLog(r, start, status, size)`. -/
def writeLogModel (r : RequestM) (status : Int) (size : Nat) : LogLine :=
  ⟨r.host, r.method, r.uri, r.proto, status, size⟩

/-- `ServeHTTP`: when `EnableLog` is set, wrap the response writer in a
`responseLogger`, run the router, and emit one log line from
`logger.Status()` and `logger.Size()`; otherwise run the router bare and
emit nothing. `evs` are the writer operations the matched route performs. -/
def serveHTTPModel (w : Weavebox) (r : RequestM) (evs : List WEvent) : Option LogLine :=
  if w.enableLog then
    some (writeLogModel r (runLogger evs).status (runLogger evs).size)
  else
    none

/-- Spec-side reading (for comparison with `runLogger`): the code of the
last explicit header write of the request, if any. -/
def lastHeaderCode : List WEvent → Option Int
  | [] => none
  | WEvent.header c :: t =>
    (match lastHeaderCode t with
     | some c2 => some c2
     | none => some c)
  | _ :: t => lastHeaderCode t

/-- Spec-side reading: whether any body write occurred. -/
def hasBody : List WEvent → Bool
  | [] => false
  | WEvent.body _ :: _ => true
  | _ :: t => hasBody t

/-- Spec-side reading: total bytes of all body writes. -/
def sumBytes : List WEvent → Nat
  | [] => 0
  | WEvent.body p :: t => p.length + sumBytes t
  | _ :: t => sumBytes t

lemma foldl_snoc (hs : List MHandler) (acc : List MHandler) :
    hs.foldl (fun a h => a ++ [h]) acc = acc ++ hs := by
  induction hs generalizing acc with
  | nil => simp
  | cons h t ih => simp [List.foldl, ih]

lemma useW_middleware (w : Weavebox) (hs : List MHandler) :
    (useW w hs).middleware = w.middleware ++ hs := by
  simp [useW, foldl_snoc]

lemma applyUses_middleware (calls : List (List MHandler)) (w : Weavebox) :
    (applyUses w calls).middleware = w.middleware ++ calls.flatten := by
  induction calls generalizing w with
  | nil => simp [applyUses]
  | cons c t ih =>
    simp only [applyUses, List.foldl] at *
    rw [ih, useW_middleware]
    simp [List.append_assoc]

lemma runChain_all_ok (mw : List MHandler) (t : MHandler)
    (hmw : ∀ x ∈ mw, x.res = none) (ht : t.res = none) :
    runChain mw t = (mw.map MHandler.id ++ [t.id], []) := by
  induction mw with
  | nil => simp [runChain, ht]
  | cons m rest ih =>
    have hm : m.res = none := hmw m (by simp)
    have hrest : ∀ x ∈ rest, x.res = none := fun x hx => hmw x (by simp [hx])
    simp [runChain, hm, ih hrest]

lemma runChain_term_fail (mw : List MHandler) (t : MHandler) (e : String)
    (hmw : ∀ x ∈ mw, x.res = none) (ht : t.res = some e) :
    runChain mw t = (mw.map MHandler.id ++ [t.id], [e]) := by
  induction mw with
  | nil => simp [runChain, ht]
  | cons m rest ih =>
    have hm : m.res = none := hmw m (by simp)
    have hrest : ∀ x ∈ rest, x.res = none := fun x hx => hmw x (by simp [hx])
    simp [runChain, hm, ih hrest]

lemma runChain_mid_fail (pre post : List MHandler) (m : MHandler) (t : MHandler)
    (e : String) (hpre : ∀ x ∈ pre, x.res = none) (hm : m.res = some e) :
    runChain (pre ++ m :: post) t = (pre.map MHandler.id ++ [m.id], [e]) := by
  induction pre with
  | nil => simp [runChain, hm]
  | cons p rest ih =>
    have hp : p.res = none := hpre p (by simp)
    have hrest : ∀ x ∈ rest, x.res = none := fun x hx => hpre x (by simp [hx])
    simp [runChain, hp, ih hrest]

lemma runChain_errs_le_one (mw : List MHandler) (t : MHandler) :
    (runChain mw t).2.length ≤ 1 := by
  induction mw with
  | nil =>
    cases h : t.res <;> simp [runChain, h]
  | cons m rest ih =>
    cases h : m.res <;> simp [runChain, h, ih]

lemma rlStep_size_header (l : RLog) (c : Int) : (rlStep l (WEvent.header c)).size = l.size := rfl

lemma rlStep_body_status (l : RLog) (p : List Nat) :
    (rlStep l (WEvent.body p)).status = if l.status = 0 then 200 else l.status := by
  by_cases h : l.status = 0 <;> simp [rlStep, h]

lemma rlStep_body_status_ne (l : RLog) (p : List Nat) :
    (rlStep l (WEvent.body p)).status ≠ 0 := by
  rw [rlStep_body_status]
  split_ifs with h
  · decide
  · exact h

lemma runLogger_size_aux (evs : List WEvent) (l : RLog) :
    (evs.foldl rlStep l).size = l.size + sumBytes evs := by
  induction evs generalizing l with
  | nil => simp [sumBytes]
  | cons e t ih =>
    cases e with
    | header c => simp [List.foldl, ih, rlStep, sumBytes]
    | body p =>
      simp only [List.foldl, ih, rlStep, sumBytes]
      by_cases h : l.status = 0 <;> simp [h] <;> omega

lemma runLogger_status_aux (evs : List WEvent) (l : RLog)
    (hnz : ∀ c, WEvent.header c ∈ evs → c ≠ 0) :
    (evs.foldl rlStep l).status =
      (match lastHeaderCode evs with
       | some c => c
       | none => if hasBody evs then (if l.status = 0 then 200 else l.status) else l.status) := by
  induction evs generalizing l with
  | nil => simp [lastHeaderCode, hasBody]
  | cons e t ih =>
    cases e with
    | header c =>
      have hc : c ≠ 0 := hnz c (by simp)
      have hnz2 : ∀ c2, WEvent.header c2 ∈ t → c2 ≠ 0 := fun c2 hm => hnz c2 (by simp [hm])
      have hstep : rlStep l (WEvent.header c) = ⟨c, l.size⟩ := rfl
      rw [List.foldl_cons, hstep, ih ⟨c, l.size⟩ hnz2]
      simp only [lastHeaderCode]
      cases hl : lastHeaderCode t with
      | some c2 => simp
      | none => simp [hc]
    | body p =>
      have hnz2 : ∀ c2, WEvent.header c2 ∈ t → c2 ≠ 0 := fun c2 hm => hnz c2 (by simp [hm])
      rw [List.foldl_cons, ih (rlStep l (WEvent.body p)) hnz2]
      simp only [lastHeaderCode, hasBody]
      cases hl : lastHeaderCode t with
      | some c2 => simp
      | none =>
        simp [rlStep_body_status_ne, rlStep_body_status]
        intro h1 h2
        split_ifs at h2 with h3
        · exact absurd h2 (by decide)
        · exact absurd h2 h3

/-! ## Claim theorems -/

/-- C1: for every sequence of `Use` calls and every matched route with
terminal handler `t`, when every registered middleware handler and `t`
succeed, the dispatch entry point executes exactly the middleware in
registration order followed by the terminal handler, and the error handler
is never invoked. -/
theorem middleware_order_c1 (calls : List (List MHandler)) (t : MHandler)
    (hall : ∀ h ∈ calls.flatten, h.res = none) (ht : t.res = none) :
    (applyUses New calls).middleware = calls.flatten ∧
    makeHTTPRouterHandle (applyUses New calls) t =
      (calls.flatten.map MHandler.id ++ [t.id], []) := by
  have hm : (applyUses New calls).middleware = calls.flatten := by
    rw [applyUses_middleware]; rfl
  refine ⟨hm, ?_⟩
  rw [makeHTTPRouterHandle, hm]
  exact runChain_all_ok _ _ hall ht

theorem middleware_order_c1_witness :
    (∀ h ∈ ([[⟨1, none⟩], [⟨2, none⟩, ⟨3, none⟩]] : List (List MHandler)).flatten,
        h.res = none) ∧
    makeHTTPRouterHandle (applyUses New [[⟨1, none⟩], [⟨2, none⟩, ⟨3, none⟩]]) ⟨9, none⟩ =
      ([1, 2, 3, 9], []) :=
  ⟨by decide,
   (middleware_order_c1 [[⟨1, none⟩], [⟨2, none⟩, ⟨3, none⟩]] ⟨9, none⟩ (by decide) rfl).2⟩

/-- C2: dispatch short-circuits on the first failing handler: if the
middleware before `m` succeed and `m` fails with `e`, only they and `m` run
and the error handler is invoked exactly once with `e`; if all middleware
succeed and the terminal handler fails, the error handler is invoked exactly
once with that failure; in all cases at most one error-handler invocation
occurs per request. -/
theorem short_circuit_c2 :
    (∀ (w : Weavebox) (t : MHandler) (pre post : List MHandler) (m : MHandler) (e : String),
        w.middleware = pre ++ m :: post →
        (∀ x ∈ pre, x.res = none) →
        m.res = some e →
        makeHTTPRouterHandle w t = (pre.map MHandler.id ++ [m.id], [e])) ∧
    (∀ (w : Weavebox) (t : MHandler) (e : String),
        (∀ x ∈ w.middleware, x.res = none) →
        t.res = some e →
        makeHTTPRouterHandle w t = (w.middleware.map MHandler.id ++ [t.id], [e])) ∧
    (∀ (w : Weavebox) (t : MHandler), (makeHTTPRouterHandle w t).2.length ≤ 1) := by
  refine ⟨?_, ?_, ?_⟩
  · intro w t pre post m e hw hpre hm
    rw [makeHTTPRouterHandle, hw]
    exact runChain_mid_fail pre post m t e hpre hm
  · intro w t e hall ht
    exact runChain_term_fail _ _ _ hall ht
  · intro w t
    exact runChain_errs_le_one _ _

theorem short_circuit_c2_witness :
    ({ New with middleware := [⟨1, none⟩, ⟨2, some "boom"⟩, ⟨3, none⟩] } : Weavebox).middleware
        = [⟨1, none⟩] ++ ⟨2, some "boom"⟩ :: [⟨3, none⟩] ∧
    (∀ x ∈ ([⟨1, none⟩] : List MHandler), x.res = none) ∧
    makeHTTPRouterHandle
        { New with middleware := [⟨1, none⟩, ⟨2, some "boom"⟩, ⟨3, none⟩] } ⟨9, none⟩
      = ([1, 2], ["boom"]) :=
  ⟨rfl, by decide,
   short_circuit_c2.1 { New with middleware := [⟨1, none⟩, ⟨2, some "boom"⟩, ⟨3, none⟩] }
     ⟨9, none⟩ [⟨1, none⟩] [⟨3, none⟩] ⟨2, some "boom"⟩ "boom" rfl (by decide) rfl⟩

/-- C3: evaluation at the failing input. After `app.Use(h1, h2, h3)`
(slice of length 3, capacity 4), `s := app.Subrouter("/s")` shares the
backing array; `s.Use(h4)` makes the subrouter's chain `[1, 2, 3, 4]`, and
the parent's subsequent `app.Use(h5)` overwrites the shared cell, changing
the subrouter's effective chain to `[1, 2, 3, 5]` — contradicting the
claimed snapshot independence of the subrouter's middleware. -/
theorem subrouter_alias_c3 :
    effectiveMiddleware aliasStep3.1 aliasStep3.2 = [1, 2, 3, 4] ∧
    effectiveMiddleware aliasStep4.1 aliasStep3.2 = [1, 2, 3, 5] ∧
    effectiveMiddleware aliasStep4.1 aliasStep3.2 ≠
      effectiveMiddleware aliasStep3.1 aliasStep3.2 :=
  ⟨by decide, by decide, by decide⟩

/-- C4: a subrouter's effective prefix is the parent's prefix combined with
the prefix argument, computed at creation; a route registers under the
path-segment join (Go `path.Join`, collapsing redundant separators) of the
effective prefix and the route path; in particular
`app.Subrouter("/api").Subrouter("/v1").Get("/x", h)` registers at
`/api/v1/x`. -/
theorem route_registration_c4 :
    (∀ (w : Weavebox) (p : String), (subrouterW w p).pfx = w.pfx ++ p) ∧
    (∀ (w : Weavebox) (method route : String) (h : MHandler),
        (addRoute w method route h).router =
          w.router ++ [(method, goPathJoin w.pfx route, h)]) ∧
    (getRoute (subrouterW (subrouterW New "/api") "/v1") "/x" ⟨0, none⟩).router
        = [("GET", "/api/v1/x", ⟨0, none⟩)] ∧
    goPathJoin "/api/" "//x" = "/api/x" :=
  ⟨fun w p => rfl, fun w method route h => rfl, by decide, by decide⟩

/-- C5: `Redirect(url, code)` returns the "invalid redirect code" error
exactly when `code` lies outside `[300, 307]`; inside the range it issues
the redirect (Location url, status code) and returns success — the
underlying write's outcome cannot affect the result. In particular
`Redirect(url, 200)` fails with the validation error and
`Redirect(url, 302)` succeeds. -/
theorem redirect_code_c5 (url : String) (code : Int) (writeFails : Bool) :
    ((contextRedirect url code writeFails).err = some "invalid redirect code" ↔
        code < 300 ∨ code > 307) ∧
    ((contextRedirect url code writeFails).err = none ↔ 300 ≤ code ∧ code ≤ 307) ∧
    (300 ≤ code → code ≤ 307 →
        contextRedirect url code writeFails = ⟨none, some (url, code)⟩) ∧
    (contextRedirect url 200 writeFails).err = some "invalid redirect code" ∧
    (contextRedirect url 302 writeFails).err = none := by
  refine ⟨?_, ?_, ?_, ?_, ?_⟩
  · by_cases h : code < 300 ∨ code > 307 <;> simp [contextRedirect, h]
  · by_cases h : code < 300 ∨ code > 307 <;> simp [contextRedirect, h] <;> omega
  · intro h1 h2
    have h : ¬(code < 300 ∨ code > 307) := by omega
    simp [contextRedirect, h]
  · norm_num [contextRedirect]
  · norm_num [contextRedirect]

theorem redirect_code_c5_witness :
    (300 : Int) ≤ 302 ∧ (302 : Int) ≤ 307 ∧
    contextRedirect "/target" 302 false = ⟨none, some ("/target", 302)⟩ :=
  ⟨by decide, by decide, (redirect_code_c5 "/target" 302 false).2.2.1 (by decide) (by decide)⟩

/-- C6 counterexample: on an application with no installed renderer (`New`),
`Render` does not return an explicit "no renderer configured" error — it
nil-dereferences the renderer interface. -/
theorem render_engine_c6_cex :
    contextRender New "index" 0 = RenderOutcome.nilDereference ∧
    RenderOutcome.nilDereference ≠ RenderOutcome.err "no renderer configured" :=
  ⟨rfl, by decide⟩

/-- C6 (amended): with no renderer installed, `Render` nil-dereferences the
renderer interface (a crash), rather than returning an explicit error; when
a renderer is installed via `SetTemplateEngine`, `Render` fails exactly when
the renderer's own Render call fails. -/
theorem render_engine_c6 :
    (∀ (w : Weavebox) (name : String) (d : Nat),
        w.templateEngine = none → contextRender w name d = RenderOutcome.nilDereference) ∧
    (∀ (w : Weavebox) (t : RendererM) (name : String) (d : Nat) (e : String),
        contextRender (setTemplateEngine w t) name d = RenderOutcome.err e ↔
          t.render name d = some e) ∧
    (∀ (w : Weavebox) (t : RendererM) (name : String) (d : Nat),
        contextRender (setTemplateEngine w t) name d = RenderOutcome.ok ↔
          t.render name d = none) := by
  refine ⟨?_, ?_, ?_⟩
  · intro w name d h
    simp [contextRender, h]
  · intro w t name d e
    simp only [contextRender, setTemplateEngine]
    cases ht : t.render name d <;> simp [ht]
  · intro w t name d
    simp only [contextRender, setTemplateEngine]
    cases ht : t.render name d <;> simp [ht]

theorem render_engine_c6_witness :
    New.templateEngine = none ∧
    contextRender New "page" 1 = RenderOutcome.nilDereference :=
  ⟨rfl, render_engine_c6.1 New "page" 1 rfl⟩

/-- C7: `JSON(code, v)` first sets the JSON content type, then writes the
status header with `code`, and only then writes the serialized value (once);
a serialization failure is returned to the caller but the status header was
already written before serialization was attempted. -/
theorem json_order_c7 (enc : Except String (List Nat)) (code : Int) :
    (contextJSON enc code).1.take 2 =
      [RespEvent.setHeader "Content-Type" "application/json",
       RespEvent.writeHeader code] ∧
    statusWritten (contextJSON enc code).1 = some code ∧
    (∀ bs, enc = Except.ok bs →
        contextJSON enc code =
          ([RespEvent.setHeader "Content-Type" "application/json",
            RespEvent.writeHeader code, RespEvent.bodyWrite bs], none)) ∧
    (∀ e, enc = Except.error e →
        contextJSON enc code =
          ([RespEvent.setHeader "Content-Type" "application/json",
            RespEvent.writeHeader code], some e)) ∧
    countBodyWrites (contextJSON enc code).1 ≤ 1 := by
  cases enc with
  | ok bs =>
    refine ⟨rfl, rfl, ?_, ?_, Nat.le_refl 1⟩
    · intro bs2 h
      cases h
      rfl
    · intro e h
      exact Except.noConfusion h
  | error e =>
    refine ⟨rfl, rfl, ?_, ?_, Nat.zero_le 1⟩
    · intro bs h
      exact Except.noConfusion h
    · intro e2 h
      cases h
      rfl

theorem json_order_c7_witness :
    (Except.ok [123, 34, 97, 34, 58, 49, 125, 10] : Except String (List Nat)) =
      Except.ok [123, 34, 97, 34, 58, 49, 125, 10] ∧
    contextJSON (Except.ok [123, 34, 97, 34, 58, 49, 125, 10]) 201 =
      ([RespEvent.setHeader "Content-Type" "application/json",
        RespEvent.writeHeader 201,
        RespEvent.bodyWrite [123, 34, 97, 34, 58, 49, 125, 10]], none) :=
  ⟨rfl, (json_order_c7 (Except.ok [123, 34, 97, 34, 58, 49, 125, 10]) 201).2.2.1 _ rfl⟩

/-- C8: with logging enabled, the emitted log line's status field is the
code of the last explicit header write (defaulting to 200 when the body was
written with no explicit header write, and 0 when nothing was written), and
its size field is the total byte count of all body writes. -/
theorem access_log_c8 (r : RequestM) (evs : List WEvent)
    (hnz : ∀ c, WEvent.header c ∈ evs → c ≠ 0) :
    serveHTTPModel New r evs =
      some { host := r.host, method := r.method, uri := r.uri, proto := r.proto,
             status := (match lastHeaderCode evs with
                        | some c => c
                        | none => if hasBody evs then 200 else 0),
             size := sumBytes evs } := by
  have hst : (runLogger evs).status =
      (match lastHeaderCode evs with
       | some c => c
       | none => if hasBody evs then 200 else 0) := by
    rw [runLogger, runLogger_status_aux evs ⟨0, 0⟩ hnz]
    cases lastHeaderCode evs with
    | some c => rfl
    | none => norm_num
  have hsz : (runLogger evs).size = sumBytes evs := by
    rw [runLogger, runLogger_size_aux]
    simp
  simp [serveHTTPModel, New, writeLogModel, hst, hsz]

theorem access_log_c8_witness :
    (∀ c, WEvent.header c ∈
        [WEvent.header 200, WEvent.body [112, 111, 110, 103]] → c ≠ 0) ∧
    serveHTTPModel New ⟨"client", "GET", "/ping", "HTTP/1.1"⟩
        [WEvent.header 200, WEvent.body [112, 111, 110, 103]] =
      some ⟨"client", "GET", "/ping", "HTTP/1.1", 200, 4⟩ :=
  ⟨by intro c hc; simp at hc; omega,
   access_log_c8 ⟨"client", "GET", "/ping", "HTTP/1.1"⟩
     [WEvent.header 200, WEvent.body [112, 111, 110, 103]]
     (by intro c hc; simp at hc; omega)⟩

/-- C9: `New()` yields an application with empty prefix, fresh (empty)
router registrations, no middleware, logging enabled, output on standard
error, and the default error handler installed, which responds with status
500, plain-text content type, and the failure's message (as a text line) as
body. -/
theorem new_defaults_c9 :
    New.pfx = "" ∧ New.router = [] ∧ New.middleware = [] ∧
    New.enableLog = true ∧ New.output = Sink.stderr ∧
    New.errorHandler = defaultErrorHandler ∧
    ∀ msg : String,
      statusWritten (New.errorHandler msg) = some 500 ∧
      headerValue "Content-Type" (New.errorHandler msg) =
        some "text/plain; charset=utf-8" ∧
      bodyBytes (New.errorHandler msg) = strBytes (msg ++ "\n") := by
  refine ⟨rfl, rfl, rfl, rfl, rfl, rfl, fun msg => ⟨rfl, ?_, ?_⟩⟩
  · rfl
  · simp [New, defaultErrorHandler, bodyBytes]

/-- C10: with logging enabled, a request whose handlers write neither an
explicit status header nor any body bytes is logged with status field 0
(the wrapper's zero value, not 200) and byte-count field 0. -/
theorem log_zero_status_c10 (r : RequestM) :
    serveHTTPModel New r [] =
      some { host := r.host, method := r.method, uri := r.uri, proto := r.proto,
             status := 0, size := 0 } ∧
    (0 : Int) ≠ 200 :=
  ⟨rfl, by decide⟩
